import Mathlib

/-!
Verification of the poissonregime statistical library.

The module is a flat set of pure numerical functions over scalars or
element-wise arrays.  We embed each function over the real numbers.
Machine floating point is idealised as real arithmetic; the module-level
constant tiny (the smallest positive normal double) is the exact real
number 2 ^ (-1022).

External special-function collaborators (the inverse normal CDF ndtri,
the normal CDF ndtr, the Li and Ma closed-form significance, the inverse
regularized incomplete gamma and beta functions, the hypergeometric
functions and the Gamma function) are modelled as fields of a structure
Ext together with their documented mathematical contracts; every theorem
holds for an arbitrary conforming collaborator, and a concrete conforming
instance extWitness is provided for closed evaluations.  The Poisson
survival function called by the code, scipy.stats.poisson.sf, has the
documented semantics sf(n, mu) = 1 - cdf(n, mu) = P(X > n); it is
embedded concretely as poisson_sf below.

Error behaviour (Python raise) is modelled with Except PyErr.
-/

open scoped Classical

namespace PoissonRegime

/-- Kinds of Python exceptions the module can surface: the
ArithmeticError raised by the p-value-to-significance conversion, the
AssertionError raised by the precondition checks of the uncertainty
functions, and the ValueError numpy raises when an array with more than
one element is forced to a single truth value. -/
inductive PyErr where
  | arithmeticError (msg : String)
  | assertionError (msg : String)
  | valueError (msg : String)
deriving DecidableEq

/-- Python scalar argument of the uncertainty functions: an int or a
float, mirroring the isinstance checks of the source. -/
inductive PyNum where
  | int (i : ℤ)
  | float (x : ℝ)

/-- Argument k of significance: a scalar or a numpy array, mirroring the
duck typing of the source. -/
inductive KArg where
  | scalar (x : ℝ)
  | arr (xs : List ℝ)

/-- Module constant: np.finfo(float).tiny, the smallest positive normal
double, which is exactly 2 ^ (-1022). -/
noncomputable def tiny : ℝ := (2 : ℝ) ^ (-1022 : ℤ)

/-- External special-function collaborators and their documented
mathematical contracts.  ndtr is the standard normal CDF (strictly
increasing, with value above tiny at -7 and at most 1/2 on nonpositive
arguments expressed through ndtri), ndtri its inverse, li_ma the closed
form Li and Ma significance magnitude (non-negative), gammainccinv the
inverse regularized upper incomplete gamma function (positive for valid
shape and quantile), betaincinv the inverse regularized incomplete beta
function (valued in the unit interval for valid shapes, and the identity
at shape parameters (1,1)).  The remaining fields carry no contract the
claims need. -/
structure Ext where
  ndtr : ℝ → ℝ
  ndtri : ℝ → ℝ
  li_ma : ℝ → ℝ → ℝ → ℝ
  gammainccinv : ℝ → ℝ → ℝ
  betaincinv : ℝ → ℝ → ℝ → ℝ
  poisson_pmf : ℝ → ℝ → ℝ
  hyperu : ℝ → ℝ → ℝ → ℝ
  hyp2f1 : ℝ → ℝ → ℝ → ℝ → ℝ
  gammaFn : ℝ → ℝ
  ndtr_strictMono : StrictMono ndtr
  ndtri_ndtr : ∀ z, ndtri (ndtr z) = z
  ndtr_ndtri : ∀ p, 0 < p → p < 1 → ndtr (ndtri p) = p
  tiny_lt_ndtr_neg_seven : tiny < ndtr (-7)
  ndtri_nonpos : ∀ p, 0 < p → p ≤ 1 / 2 → ndtri p ≤ 0
  li_ma_nonneg : ∀ n b a, 0 ≤ li_ma n b a
  gammainccinv_pos : ∀ a q, 1 ≤ a → 0 < q → q < 1 → 0 < gammainccinv a q
  betaincinv_mem : ∀ a b q, 1 ≤ a → 1 ≤ b → 0 < q → q < 1 →
    0 ≤ betaincinv a b q ∧ betaincinv a b q ≤ 1
  betaincinv_one_one : ∀ q, 0 < q → q < 1 → betaincinv 1 1 q = q

/-- Source line 51-55: raise ArithmeticError when the pvalue is not
strictly above tiny, otherwise return -ndtri(pvalue).  Scalar form. -/
noncomputable def significance_from_pvalue (E : Ext) (pvalue : ℝ) : Except PyErr ℝ :=
  if pvalue ≤ tiny then
    .error (.arithmeticError "One or more pvalues are too small for a significance computation.")
  else
    .ok (-(E.ndtri pvalue))

/-- Source line 51-55 applied to an array argument: np.any over the
elements decides the raise, otherwise ndtri maps element-wise. -/
noncomputable def significance_from_pvalueList (E : Ext) (pvalue : List ℝ) :
    Except PyErr (List ℝ) :=
  if ∃ p ∈ pvalue, p ≤ tiny then
    .error (.arithmeticError "One or more pvalues are too small for a significance computation.")
  else
    .ok (pvalue.map fun p => -(E.ndtri p))

/-- Source line 57-64: ndtr evaluated at the negated z-score. -/
noncomputable def pvalue_from_significance (E : Ext) (zscore : ℝ) : ℝ :=
  E.ndtr (-zscore)

/-- External collaborator scipy.stats.poisson.sf with integer count:
sf(n, mu) = 1 - cdf(n, mu) = P(X > n), where the CDF sums the Poisson
mass from 0 through n inclusive. -/
noncomputable def poisson_sf (n : ℕ) (mu : ℝ) : ℝ :=
  1 - Real.exp (-mu) * ∑ i ∈ Finset.range (n + 1), mu ^ i / (Nat.factorial i : ℝ)

/-- Quantity named by the specification text for claim comparison: the
upper tail probability P(X ≥ n) of a Poisson variable with mean mu, the
probability of observing n or more events. -/
noncomputable def poisson_prob_ge (n : ℕ) (mu : ℝ) : ℝ :=
  1 - Real.exp (-mu) * ∑ i ∈ Finset.range n, mu ^ i / (Nat.factorial i : ℝ)

/-- Source line 66-93, scalar form.  k < 0: convert the scipy Poisson
survival probability at mean alpha * b.  k >= 0: signed Li and Ma
magnitude with effective ratio alpha * (k + 1). -/
noncomputable def significance (E : Ext) (n : ℕ) (b alpha k : ℝ) : Except PyErr ℝ :=
  if k < 0 then
    significance_from_pvalue E (poisson_sf n (alpha * b))
  else
    .ok ((if (n : ℝ) ≥ alpha * b then 1 else -1) * E.li_ma (n : ℝ) b (alpha * (k + 1)))

/-- Element-wise k < 0 branch of significance over equal-length arrays. -/
noncomputable def significanceListNeg (E : Ext) (n : List ℕ) (b alpha : List ℝ) :
    Except PyErr (List ℝ) :=
  significance_from_pvalueList E
    ((n.zip (b.zip alpha)).map fun x => poisson_sf x.1 (x.2.2 * x.2.1))

/-- Element-wise k >= 0 branch of significance over equal-length arrays
with a single broadcast k value. -/
noncomputable def significanceListPos (E : Ext) (n : List ℕ) (b alpha : List ℝ)
    (kval : ℝ) : List ℝ :=
  (n.zip (b.zip alpha)).map fun x =>
    (if (x.1 : ℝ) ≥ x.2.2 * x.2.1 then 1 else -1) * E.li_ma (x.1 : ℝ) x.2.1 (x.2.2 * (kval + 1))

/-- Source line 66-93 on array inputs.  The Python conditional on line
89 forces bool(k < 0): for a scalar k this is the comparison itself; for
an array k numpy accepts a single-element array and raises ValueError
otherwise, before any branch is computed. -/
noncomputable def significanceVec (E : Ext) (n : List ℕ) (b alpha : List ℝ) :
    KArg → Except PyErr (List ℝ)
  | .scalar x =>
      if x < 0 then significanceListNeg E n b alpha
      else .ok (significanceListPos E n b alpha x)
  | .arr xs =>
      if xs.length = 1 then
        if xs.headI < 0 then significanceListNeg E n b alpha
        else .ok (significanceListPos E n b alpha xs.headI)
      else
        .error (.valueError
          "The truth value of an array with more than one element is ambiguous. Use a.any() or a.all()")

/-- Source line 95-112: closed-form posterior density of a source count
rate, a product and quotient of external special-function values with
the intermediate quantities of the source. -/
noncomputable def posterior (E : Ext) (rate n b alpha exposure : ℝ) : ℝ :=
  let nexp := exposure * rate
  let t_1 := 1 + b + n
  let hb := 0.5 + b
  let thb := 1.5 + b
  E.poisson_pmf (n + b) nexp * E.hyperu hb t_1 ((1 + 1 / alpha) * nexp) /
      E.hyp2f1 hb t_1 thb (-1 / alpha) * E.gammaFn thb

/-- Source line 116-130: assert k integer-typed, assert every quantile
strictly inside (0,1) (two np.all checks in source order), then return
the inverse regularized upper incomplete gamma values divided by the
exposure. -/
noncomputable def uncertainties_rate (E : Ext) (k : PyNum) (q : List ℝ)
    (exposure : ℝ) : Except PyErr (List ℝ) :=
  match k with
  | .float _ => .error (.assertionError "k must be integer")
  | .int i =>
      if ∀ y ∈ q, 0 < y then
        if ∀ y ∈ q, y < 1 then
          .ok (q.map fun y => E.gammainccinv ((i : ℝ) + 1) y / exposure)
        else .error (.assertionError "Quantile must be between zero and one.")
      else .error (.assertionError "Quantile must be between zero and one.")

/-- Source line 133-150: assert k integer-typed, assert n integer-typed,
assert k <= n, assert every quantile strictly inside (0,1), then return
the inverse regularized incomplete beta values at shapes
(k + 1, n + 1 - k). -/
noncomputable def uncertainties_fraction (E : Ext) (k n : PyNum) (q : List ℝ) :
    Except PyErr (List ℝ) :=
  match k, n with
  | .float _, _ => .error (.assertionError "k must be integer")
  | .int _, .float _ => .error (.assertionError "n must be integer")
  | .int i, .int j =>
      if i ≤ j then
        if ∀ y ∈ q, 0 < y then
          if ∀ y ∈ q, y < 1 then
            .ok (q.map fun y => E.betaincinv ((i : ℝ) + 1) ((j : ℝ) + 1 - (i : ℝ)) y)
          else .error (.assertionError "Quantile must be between zero and one.")
        else .error (.assertionError "Quantile must be between zero and one.")
      else .error (.assertionError "k must be smaller than n.")

/-- Concrete conforming collaborator instance used for closed witnesses
and counterexamples.  The normal CDF is replaced by the logistic
function, which satisfies the same inverse-pair, monotonicity, range and
symmetry contracts; the remaining collaborators are the simplest
functions meeting their contracts. -/
noncomputable def extWitness : Ext where
  ndtr := fun z => 1 / (1 + Real.exp (-z))
  ndtri := fun p => Real.log (p / (1 - p))
  li_ma := fun _ _ _ => 0
  gammainccinv := fun _ _ => 1
  betaincinv := fun _ _ q => min 1 (max 0 q)
  poisson_pmf := fun _ _ => 0
  hyperu := fun _ _ _ => 0
  hyp2f1 := fun _ _ _ _ => 0
  gammaFn := fun _ => 0
  ndtr_strictMono := by
    intro a b hab
    have h1 : (0 : ℝ) < 1 + Real.exp (-b) := by positivity
    have h2 : 1 + Real.exp (-b) < 1 + Real.exp (-a) := by
      have := Real.exp_lt_exp.mpr (neg_lt_neg hab)
      linarith
    exact one_div_lt_one_div_of_lt h1 h2
  ndtri_ndtr := by
    intro z
    have ha : (0 : ℝ) < Real.exp (-z) := Real.exp_pos _
    have hD : (0 : ℝ) < 1 + Real.exp (-z) := by positivity
    have key : (1 / (1 + Real.exp (-z))) / (1 - 1 / (1 + Real.exp (-z)))
        = (Real.exp (-z))⁻¹ := by
      rw [show (1 : ℝ) - 1 / (1 + Real.exp (-z)) = Real.exp (-z) / (1 + Real.exp (-z)) by
        field_simp]
      rw [div_div_div_cancel_right₀ (ne_of_gt hD), one_div]
    show Real.log ((1 / (1 + Real.exp (-z))) / (1 - 1 / (1 + Real.exp (-z)))) = z
    rw [key, Real.log_inv, Real.log_exp, neg_neg]
  ndtr_ndtri := by
    intro p hp0 hp1
    have h1p : (0 : ℝ) < 1 - p := by linarith
    have hx : (0 : ℝ) < p / (1 - p) := div_pos hp0 h1p
    show 1 / (1 + Real.exp (-Real.log (p / (1 - p)))) = p
    rw [Real.exp_neg, Real.exp_log hx, inv_div]
    rw [show (1 : ℝ) + (1 - p) / p = 1 / p by field_simp]
    exact one_div_one_div p
  tiny_lt_ndtr_neg_seven := by
    show tiny < 1 / (1 + Real.exp (-(-7 : ℝ)))
    have he : Real.exp (-(-7 : ℝ)) < 2187 := by
      rw [neg_neg, show (7 : ℝ) = ((7 : ℕ) : ℝ) * 1 by norm_num, Real.exp_nat_mul]
      calc Real.exp 1 ^ (7 : ℕ)
          < 3 ^ (7 : ℕ) := by
            apply pow_lt_pow_left₀ _ (Real.exp_pos 1).le (by norm_num)
            have := Real.exp_one_lt_d9
            linarith
        _ = 2187 := by norm_num
    have hd : (0 : ℝ) < 1 + Real.exp (-(-7 : ℝ)) := by positivity
    have h1 : (1 : ℝ) / 4096 < 1 / (1 + Real.exp (-(-7 : ℝ))) := by
      rw [div_lt_div_iff₀ (by norm_num) hd]
      nlinarith [he]
    have h2 : tiny < 1 / 4096 := by
      show (2 : ℝ) ^ (-1022 : ℤ) < 1 / 4096
      have : (1 : ℝ) / 4096 = (2 : ℝ) ^ (-12 : ℤ) := by norm_num
      rw [this]
      exact zpow_lt_zpow_right₀ (by norm_num) (by norm_num)
    linarith
  ndtri_nonpos := by
    intro p hp0 hp
    show Real.log (p / (1 - p)) ≤ 0
    apply Real.log_nonpos
    · exact div_nonneg hp0.le (by linarith)
    · rw [div_le_one (by linarith : (0 : ℝ) < 1 - p)]
      linarith
  li_ma_nonneg := fun _ _ _ => le_refl 0
  gammainccinv_pos := fun _ _ _ _ _ => one_pos
  betaincinv_mem := fun _ _ q _ _ _ _ =>
    ⟨le_min (by norm_num) (le_max_left 0 q), min_le_left 1 _⟩
  betaincinv_one_one := by
    intro q hq0 hq1
    show min 1 (max 0 q) = q
    rw [max_eq_right hq0.le, min_eq_right hq1.le]

/-- Adversarial yet conforming collaborator instance: identical to
extWitness except that the inverse incomplete beta function returns 2
whenever its first shape parameter lies outside the documented domain
(below 1).  Every contract field still holds, since the contracts only
constrain valid shapes. -/
noncomputable def extWitnessBad : Ext :=
  { extWitness with
    betaincinv := fun a _ q => if a < 1 then 2 else min 1 (max 0 q)
    betaincinv_mem := by
      intro a b q ha _ _ _
      show 0 ≤ (if a < 1 then (2 : ℝ) else min 1 (max 0 q)) ∧
        (if a < 1 then (2 : ℝ) else min 1 (max 0 q)) ≤ 1
      rw [if_neg (not_lt.mpr ha)]
      exact ⟨le_min (by norm_num) (le_max_left 0 q), min_le_left 1 _⟩
    betaincinv_one_one := by
      intro q hq0 hq1
      show (if (1 : ℝ) < 1 then (2 : ℝ) else min 1 (max 0 q)) = q
      rw [if_neg (by norm_num : ¬(1 : ℝ) < 1), max_eq_right hq0.le, min_eq_right hq1.le] }

/-! Helper lemmas: numeric bounds on tiny and on values of the
exponential, and evaluation lemmas for the embedded functions. -/

theorem tiny_pos : 0 < tiny := by
  unfold tiny
  positivity

theorem tiny_lt_quarter : tiny < 1 / 4 := by
  unfold tiny
  rw [show (1 : ℝ) / 4 = (2 : ℝ) ^ (-2 : ℤ) by norm_num]
  exact zpow_lt_zpow_right₀ (by norm_num) (by norm_num)

theorem exp_neg_one_lt_threeeighths : Real.exp (-1) < 3 / 8 := by
  rw [Real.exp_neg]
  have hp := Real.exp_pos 1
  have hinv := mul_inv_cancel₀ (ne_of_gt hp)
  have hd9 := Real.exp_one_gt_d9
  nlinarith [inv_pos.mpr hp]

theorem exp_half_sq : Real.exp (1 / 2) * Real.exp (1 / 2) = Real.exp 1 := by
  rw [← Real.exp_add]
  norm_num

theorem exp_neg_half_lt_three_quarters : Real.exp (-(1 / 2) : ℝ) < 3 / 4 := by
  rw [Real.exp_neg]
  have hp := Real.exp_pos (1 / 2 : ℝ)
  have hsq := exp_half_sq
  have hd9 := Real.exp_one_gt_d9
  have hgt : (4 : ℝ) / 3 < Real.exp (1 / 2) := by nlinarith
  have hinv := mul_inv_cancel₀ (ne_of_gt hp)
  nlinarith [inv_pos.mpr hp]

theorem half_le_exp_neg_half : (1 / 2 : ℝ) ≤ Real.exp (-(1 / 2) : ℝ) := by
  rw [Real.exp_neg]
  have hp := Real.exp_pos (1 / 2 : ℝ)
  have hsq := exp_half_sq
  have hd9b := Real.exp_one_lt_d9
  have hlt : Real.exp (1 / 2) < 2 := by nlinarith
  have hinv := mul_inv_cancel₀ (ne_of_gt hp)
  nlinarith [inv_pos.mpr hp]

theorem significance_from_pvalue_ok (E : Ext) (p : ℝ) (h : tiny < p) :
    significance_from_pvalue E p = .ok (-(E.ndtri p)) := by
  unfold significance_from_pvalue
  rw [if_neg (not_le.mpr h)]

theorem significance_neg_eval (E : Ext) (n : ℕ) (b alpha k : ℝ) (hk : k < 0) :
    significance E n b alpha k = significance_from_pvalue E (poisson_sf n (alpha * b)) := by
  unfold significance
  rw [if_pos hk]

theorem poisson_sf_zero (mu : ℝ) : poisson_sf 0 mu = 1 - Real.exp (-mu) := by
  simp [poisson_sf, Nat.factorial]

theorem poisson_sf_one (mu : ℝ) : poisson_sf 1 mu = 1 - Real.exp (-mu) * (1 + mu) := by
  unfold poisson_sf
  rw [Finset.sum_range_succ, Finset.sum_range_one]
  norm_num [Nat.factorial]

theorem poisson_prob_ge_one (mu : ℝ) : poisson_prob_ge 1 mu = 1 - Real.exp (-mu) := by
  simp [poisson_prob_ge, Nat.factorial]

theorem extWitness_ndtri (p : ℝ) : extWitness.ndtri p = Real.log (p / (1 - p)) := rfl

/-! Claim theorems. -/

/-- C1 (amended): for every non-negative integer n, non-negative real b,
positive real alpha and every k < 0, significance(n, b, alpha, k) equals
significance_from_pvalue applied to the scipy Poisson survival
probability P(X > n) under mean alpha * b, that is, the one-sided
p-value used is the probability of observing strictly more than n
events (equivalently, n + 1 or more), not of n or more. -/
theorem significance_neg_k_uses_sf (E : Ext) (n : ℕ) (b alpha k : ℝ)
    (hb : 0 ≤ b) (ha : 0 < alpha) (hk : k < 0) :
    significance E n b alpha k = significance_from_pvalue E (poisson_sf n (alpha * b)) := by
  unfold significance
  rw [if_pos hk]

/-- C1 witness: the amended claim instantiated at n = 1, b = 1,
alpha = 1, k = -1 with the concrete conforming collaborator. -/
theorem significance_neg_k_uses_sf_w :
    (0 : ℝ) ≤ 1 ∧ (0 : ℝ) < 1 ∧ (-1 : ℝ) < 0 ∧
    significance extWitness 1 1 1 (-1) =
      significance_from_pvalue extWitness (poisson_sf 1 (1 * 1)) :=
  ⟨by norm_num, by norm_num, by norm_num,
    significance_neg_k_uses_sf extWitness 1 1 1 (-1) (by norm_num) (by norm_num) (by norm_num)⟩

/-- C1 counterexample: at n = 1, b = 1, alpha = 1, k = -1, with a
conforming collaborator, the value of significance differs from the
conversion of P(X ≥ n): the code converts P(X > 1) = 1 - 2/e while the
claim names P(X ≥ 1) = 1 - 1/e, and the conversion is injective on
(0, 1). -/
theorem significance_neg_k_ge_cex :
    significance extWitness 1 1 1 (-1) ≠
      significance_from_pvalue extWitness (poisson_prob_ge 1 (1 * 1)) := by
  intro hEq
  have ha : (0 : ℝ) < Real.exp (-1) := Real.exp_pos _
  have h38 : Real.exp (-1) < 3 / 8 := exp_neg_one_lt_threeeighths
  have hq := tiny_lt_quarter
  have hsf : poisson_sf 1 ((1 : ℝ) * 1) = 1 - Real.exp (-1) * 2 := by
    rw [show ((1 : ℝ) * 1) = 1 by norm_num, poisson_sf_one]
    norm_num
  have hge : poisson_prob_ge 1 ((1 : ℝ) * 1) = 1 - Real.exp (-1) := by
    rw [show ((1 : ℝ) * 1) = 1 by norm_num, poisson_prob_ge_one]
  have h1 : tiny < 1 - Real.exp (-1) * 2 := by linarith
  have h2 : tiny < 1 - Real.exp (-1) := by linarith
  rw [significance_neg_eval extWitness 1 1 1 (-1) (by norm_num), hsf, hge,
    significance_from_pvalue_ok _ _ h1, significance_from_pvalue_ok _ _ h2] at hEq
  have hv : extWitness.ndtri (1 - Real.exp (-1) * 2) = extWitness.ndtri (1 - Real.exp (-1)) :=
    neg_inj.mp (Except.ok.inj hEq)
  have hx1 : extWitness.ndtr (extWitness.ndtri (1 - Real.exp (-1) * 2))
      = 1 - Real.exp (-1) * 2 :=
    extWitness.ndtr_ndtri _ (by nlinarith) (by nlinarith)
  have hx2 : extWitness.ndtr (extWitness.ndtri (1 - Real.exp (-1)))
      = 1 - Real.exp (-1) :=
    extWitness.ndtr_ndtri _ (by nlinarith) (by nlinarith)
  have : (1 : ℝ) - Real.exp (-1) * 2 = 1 - Real.exp (-1) := by
    rw [← hx1, hv, hx2]
  nlinarith

/-- C2: for every n, b, alpha and every k ≥ 0, significance returns
sign * li_ma(n, b, alpha * (k + 1)) where sign is +1 when n ≥ alpha * b
and -1 otherwise, and the Li and Ma magnitude is non-negative. -/
theorem significance_li_ma_branch (E : Ext) (n : ℕ) (b alpha k : ℝ) (hk : 0 ≤ k) :
    significance E n b alpha k =
      .ok ((if (n : ℝ) ≥ alpha * b then 1 else -1) * E.li_ma (n : ℝ) b (alpha * (k + 1))) ∧
    0 ≤ E.li_ma (n : ℝ) b (alpha * (k + 1)) := by
  constructor
  · unfold significance
    rw [if_neg (not_lt.mpr hk)]
  · exact E.li_ma_nonneg _ _ _

/-- C2 witness: instantiated at n = 5, b = 10, alpha = 1/100, k = 0 with
the concrete conforming collaborator, whose Li and Ma magnitude is 0. -/
theorem significance_li_ma_branch_w :
    significance extWitness 5 10 (1 / 100) 0 = .ok 0 := by
  have h := (significance_li_ma_branch extWitness 5 10 (1 / 100) 0 le_rfl).1
  rw [h]
  have hl : extWitness.li_ma ((5 : ℕ) : ℝ) 10 ((1 / 100) * (0 + 1)) = 0 := rfl
  rw [hl, mul_zero]

/-- C3 (amended): for every n, b, alpha and every k < 0 on which
significance returns without error, the returned value is non-negative
whenever the used tail probability P(X > n) at mean alpha * b is at most
1/2; a deep deficit with tail probability above 1/2 yields a negative
value, so the unconditional claim fails. -/
theorem significance_neg_k_nonneg_when_sf_le_half (E : Ext) (n : ℕ) (b alpha k : ℝ)
    (hk : k < 0) (hp : poisson_sf n (alpha * b) ≤ 1 / 2) (v : ℝ)
    (hv : significance E n b alpha k = .ok v) : 0 ≤ v := by
  rw [significance_neg_eval E n b alpha k hk] at hv
  unfold significance_from_pvalue at hv
  by_cases hle : poisson_sf n (alpha * b) ≤ tiny
  · rw [if_pos hle] at hv
    exact absurd hv (by simp)
  · rw [if_neg hle] at hv
    have hvv := Except.ok.inj hv
    have h0 : 0 < poisson_sf n (alpha * b) := lt_trans tiny_pos (not_le.mp hle)
    have hnp := E.ndtri_nonpos _ h0 hp
    rw [← hvv]
    linarith

/-- C3 witness: at n = 0, b = 1/2, alpha = 1, k = -1 the tail
probability 1 - exp(-1/2) is at most 1/2 and the returned value is
non-negative. -/
theorem significance_neg_k_nonneg_when_sf_le_half_w :
    significance extWitness 0 (1 / 2) 1 (-1) =
      .ok (-(extWitness.ndtri (poisson_sf 0 (1 * (1 / 2))))) ∧
    0 ≤ -(extWitness.ndtri (poisson_sf 0 (1 * (1 / 2)))) := by
  have hp : poisson_sf 0 ((1 : ℝ) * (1 / 2)) = 1 - Real.exp (-(1 / 2)) := by
    rw [show ((1 : ℝ) * (1 / 2)) = 1 / 2 by norm_num, poisson_sf_zero]
  have htiny : tiny < poisson_sf 0 ((1 : ℝ) * (1 / 2)) := by
    rw [hp]
    linarith [exp_neg_half_lt_three_quarters, tiny_lt_quarter]
  have hhalf : poisson_sf 0 ((1 : ℝ) * (1 / 2)) ≤ 1 / 2 := by
    rw [hp]
    linarith [half_le_exp_neg_half]
  have heval : significance extWitness 0 (1 / 2) 1 (-1) =
      .ok (-(extWitness.ndtri (poisson_sf 0 (1 * (1 / 2))))) := by
    rw [significance_neg_eval extWitness 0 (1 / 2) 1 (-1) (by norm_num)]
    exact significance_from_pvalue_ok _ _ htiny
  exact ⟨heval,
    significance_neg_k_nonneg_when_sf_le_half extWitness 0 (1 / 2) 1 (-1)
      (by norm_num) hhalf _ heval⟩

/-- C3 counterexample: at n = 0, b = 5, alpha = 1, k = -1 the call
returns without error and the returned value is strictly negative, so a
deficit can produce a negative significance in the k < 0 path. -/
theorem significance_neg_k_can_be_negative :
    significance extWitness 0 5 1 (-1) =
      .ok (-(extWitness.ndtri (poisson_sf 0 (1 * 5)))) ∧
    -(extWitness.ndtri (poisson_sf 0 (1 * 5))) < 0 := by
  have hp : poisson_sf 0 ((1 : ℝ) * 5) = 1 - Real.exp (-5) := by
    rw [show ((1 : ℝ) * 5) = 5 by norm_num, poisson_sf_zero]
  have he5 : Real.exp (-5 : ℝ) < 3 / 8 := by
    have h1 : Real.exp (-5 : ℝ) < Real.exp (-1) := Real.exp_lt_exp.mpr (by norm_num)
    linarith [exp_neg_one_lt_threeeighths]
  have htiny : tiny < poisson_sf 0 ((1 : ℝ) * 5) := by
    rw [hp]
    linarith [tiny_lt_quarter]
  have heval : significance extWitness 0 5 1 (-1) =
      .ok (-(extWitness.ndtri (poisson_sf 0 (1 * 5)))) := by
    rw [significance_neg_eval extWitness 0 5 1 (-1) (by norm_num)]
    exact significance_from_pvalue_ok _ _ htiny
  refine ⟨heval, ?_⟩
  rw [hp, extWitness_ndtri,
    show (1 : ℝ) - (1 - Real.exp (-5)) = Real.exp (-5) by ring]
  have h1 : (1 : ℝ) < (1 - Real.exp (-5)) / Real.exp (-5) := by
    rw [lt_div_iff₀ (Real.exp_pos _)]
    nlinarith [he5]
  have := Real.log_pos h1
  linarith

/-- C4: the conversion raises its ArithmeticError exactly when some
element of the pvalue array is not strictly greater than tiny; when no
element violates this it returns -ndtri element-wise; and neither
uncertainty function ever surfaces an ArithmeticError (their failures
are AssertionErrors, and pvalue_from_significance and posterior are
total real-valued functions by construction). -/
theorem domain_error_spec (E : Ext) (ps : List ℝ) :
    (significance_from_pvalueList E ps =
        .error (.arithmeticError
          "One or more pvalues are too small for a significance computation.")
      ↔ ∃ p ∈ ps, p ≤ tiny) ∧
    ((∀ p ∈ ps, tiny < p) →
      significance_from_pvalueList E ps = .ok (ps.map fun p => -(E.ndtri p))) ∧
    (∀ k q e m, uncertainties_rate E k q e ≠ .error (.arithmeticError m)) ∧
    (∀ k n q m, uncertainties_fraction E k n q ≠ .error (.arithmeticError m)) := by
  refine ⟨?_, ?_, ?_, ?_⟩
  · unfold significance_from_pvalueList
    by_cases hC : ∃ p ∈ ps, p ≤ tiny
    · rw [if_pos hC]
      simp [hC]
    · rw [if_neg hC]
      simp [hC]
  · intro h
    unfold significance_from_pvalueList
    rw [if_neg (by push_neg; intro p hp; exact h p hp)]
  · intro k q e m
    cases k with
    | float x => simp [uncertainties_rate]
    | int i =>
      unfold uncertainties_rate
      split_ifs <;> simp
  · intro k n q m
    cases k with
    | float x => simp [uncertainties_fraction]
    | int i =>
      cases n with
      | float x => simp [uncertainties_fraction]
      | int j =>
        show ¬(if i ≤ j then _ else _) = _
        by_cases hij : i ≤ j
        · rw [if_pos hij]
          split_ifs <;> simp
        · rw [if_neg hij]
          simp

/-- C4 witness: a pvalue equal to tiny raises, and the pvalue 1/2 is
converted element-wise. -/
theorem domain_error_spec_w :
    significance_from_pvalueList extWitness [tiny] =
      .error (.arithmeticError
        "One or more pvalues are too small for a significance computation.") ∧
    significance_from_pvalueList extWitness [1 / 2] = .ok [-(extWitness.ndtri (1 / 2))] := by
  constructor
  · exact (domain_error_spec extWitness [tiny]).1.mpr ⟨tiny, by simp, le_rfl⟩
  · have h := (domain_error_spec extWitness [1 / 2]).2.1 (by
      intro p hp
      simp only [List.mem_singleton] at hp
      rw [hp]
      linarith [tiny_lt_quarter])
    simpa using h

/-- C5: round-trip of the conversions.  For z in [-7, 7] the conversion
of the p-value of z returns exactly z (hence within any tolerance, in
particular 1e-5), and for any p strictly between tiny and 1 the
significance -ndtri(p) converts back exactly to p. -/
theorem roundtrip_conversions (E : Ext) (z p : ℝ) (hz0 : -7 ≤ z) (hz1 : z ≤ 7)
    (hp0 : tiny < p) (hp1 : p < 1) :
    significance_from_pvalue E (pvalue_from_significance E z) = .ok z ∧
    significance_from_pvalue E p = .ok (-(E.ndtri p)) ∧
    pvalue_from_significance E (-(E.ndtri p)) = p := by
  refine ⟨?_, significance_from_pvalue_ok E p hp0, ?_⟩
  · have h7 : (-7 : ℝ) ≤ -z := by linarith
    have hmono : E.ndtr (-7) ≤ E.ndtr (-z) := E.ndtr_strictMono.monotone h7
    have ht : tiny < pvalue_from_significance E z :=
      lt_of_lt_of_le E.tiny_lt_ndtr_neg_seven hmono
    rw [significance_from_pvalue_ok E _ ht]
    unfold pvalue_from_significance
    rw [E.ndtri_ndtr, neg_neg]
  · unfold pvalue_from_significance
    rw [neg_neg]
    exact E.ndtr_ndtri p (lt_trans tiny_pos hp0) hp1

/-- C5 witness: the round trip instantiated at z = 0 and p = 1/2 with
the concrete conforming collaborator. -/
theorem roundtrip_conversions_w :
    significance_from_pvalue extWitness (pvalue_from_significance extWitness 0) = .ok 0 ∧
    significance_from_pvalue extWitness (1 / 2) = .ok (-(extWitness.ndtri (1 / 2))) ∧
    pvalue_from_significance extWitness (-(extWitness.ndtri (1 / 2))) = 1 / 2 :=
  roundtrip_conversions extWitness 0 (1 / 2) (by norm_num) (by norm_num)
    (by linarith [tiny_lt_quarter]) (by norm_num)

/-- C6: posterior evaluates, for every input (alpha = 0 included, where
the divisions simply feed junk through without any guard or raise), to
PoissonPMF(n + b; nexp) * U(hb, t1; (1 + 1/alpha) * nexp)
/ 2F1(hb, t1; thb; -1/alpha) * Gamma(thb) with nexp = exposure * rate,
t1 = 1 + b + n, hb = 0.5 + b, thb = 1.5 + b.  The function is total, so
no error is ever raised. -/
theorem posterior_closed_form (E : Ext) (rate n b alpha exposure : ℝ) :
    posterior E rate n b alpha exposure =
      E.poisson_pmf (n + b) (exposure * rate) *
          E.hyperu (0.5 + b) (1 + b + n) ((1 + 1 / alpha) * (exposure * rate)) /
          E.hyp2f1 (0.5 + b) (1 + b + n) (1.5 + b) (-1 / alpha) *
          E.gammaFn (1.5 + b) := rfl

/-- C7 (amended): uncertainties_rate fails with an assertion-style error
when k is float-typed or when some element of q is outside (0, 1); the
sign of an integer k is never checked, so a negative integer k is
accepted.  For an integer k it returns gammainccinv(k + 1, q) / exposure
element-wise, and when k is non-negative and the exposure positive every
returned value is strictly greater than 0. -/
theorem uncertainties_rate_spec (E : Ext) (i : ℤ) (q : List ℝ) (exposure : ℝ)
    (hq : ∀ y ∈ q, 0 < y ∧ y < 1) :
    uncertainties_rate E (.int i) q exposure =
      .ok (q.map fun y => E.gammainccinv ((i : ℝ) + 1) y / exposure) ∧
    (∀ x qq e, uncertainties_rate E (.float x) qq e =
      .error (.assertionError "k must be integer")) ∧
    (∀ (i2 : ℤ) (qq : List ℝ) (e y : ℝ), y ∈ qq → (y ≤ 0 ∨ 1 ≤ y) →
      ∃ m, uncertainties_rate E (.int i2) qq e = .error (.assertionError m)) ∧
    (0 ≤ i → 0 < exposure →
      ∀ v ∈ q.map (fun y => E.gammainccinv ((i : ℝ) + 1) y / exposure), 0 < v) := by
  refine ⟨?_, ?_, ?_, ?_⟩
  · show (if ∀ y ∈ q, 0 < y then _ else _) = _
    rw [if_pos (fun y hy => (hq y hy).1), if_pos (fun y hy => (hq y hy).2)]
  · intro x qq e
    rfl
  · intro i2 qq e y hy hcase
    show ∃ m, (if ∀ y ∈ qq, 0 < y then _ else _) = _
    rcases hcase with h0 | h1
    · rw [if_neg (by push_neg; exact ⟨y, hy, h0⟩)]
      exact ⟨_, rfl⟩
    · by_cases hpos : ∀ y2 ∈ qq, 0 < y2
      · rw [if_pos hpos, if_neg (by push_neg; exact ⟨y, hy, h1⟩)]
        exact ⟨_, rfl⟩
      · rw [if_neg hpos]
        exact ⟨_, rfl⟩
  · intro hi he v hv
    simp only [List.mem_map] at hv
    obtain ⟨y, hy, rfl⟩ := hv
    have h1 : (1 : ℝ) ≤ (i : ℝ) + 1 := by
      have : (0 : ℝ) ≤ (i : ℝ) := by exact_mod_cast hi
      linarith
    exact div_pos (E.gammainccinv_pos _ _ h1 (hq y hy).1 (hq y hy).2) he

/-- C7 witness: at k = 0, q = the single quantile 1/2, exposure = 1, the
returned value with the concrete collaborator is the positive list
entry 1. -/
theorem uncertainties_rate_spec_w :
    uncertainties_rate extWitness (.int 0) [1 / 2] 1 = .ok [1] := by
  have h := (uncertainties_rate_spec extWitness 0 [1 / 2] 1 (by
    intro y hy
    simp only [List.mem_singleton] at hy
    rw [hy]
    norm_num)).1
  rw [h]
  simp [extWitness]

/-- C7 counterexample: k = -1 is an integer that is not non-negative,
yet the call does not fail: no assertion checks the sign of k, and the
call returns a value. -/
theorem uncertainties_rate_negative_k_accepted :
    uncertainties_rate extWitness (.int (-1)) [1 / 2] 1 = .ok [1] := by
  have h1 : ∀ y ∈ ([1 / 2] : List ℝ), (0 : ℝ) < y := by
    intro y hy
    simp only [List.mem_singleton] at hy
    rw [hy]
    norm_num
  have h2 : ∀ y ∈ ([1 / 2] : List ℝ), y < (1 : ℝ) := by
    intro y hy
    simp only [List.mem_singleton] at hy
    rw [hy]
    norm_num
  simp only [uncertainties_rate]
  rw [if_pos h1, if_pos h2]
  simp [extWitness]

/-- C8 (amended): uncertainties_fraction fails with an assertion-style
error when k or n is not integer-typed, when k > n, or when some element
of q is outside (0, 1); for integer-typed k and n with k ≤ n and q
inside (0, 1) it returns betaincinv(k + 1, n + 1 - k, q) element-wise,
and when k is additionally non-negative every returned value lies in
[0, 1].  For a negative integer k the first shape parameter k + 1 leaves
the collaborator contract domain and no range guarantee exists. -/
theorem uncertainties_fraction_spec (E : Ext) (i j : ℤ) (q : List ℝ)
    (hij : i ≤ j) (hq : ∀ y ∈ q, 0 < y ∧ y < 1) :
    uncertainties_fraction E (.int i) (.int j) q =
      .ok (q.map fun y => E.betaincinv ((i : ℝ) + 1) ((j : ℝ) + 1 - (i : ℝ)) y) ∧
    (∀ x n2 qq, uncertainties_fraction E (.float x) n2 qq =
      .error (.assertionError "k must be integer")) ∧
    (∀ (i2 : ℤ) x qq, uncertainties_fraction E (.int i2) (.float x) qq =
      .error (.assertionError "n must be integer")) ∧
    (∀ (i2 j2 : ℤ) qq, j2 < i2 → uncertainties_fraction E (.int i2) (.int j2) qq =
      .error (.assertionError "k must be smaller than n.")) ∧
    (∀ (i2 j2 : ℤ) (qq : List ℝ) (y : ℝ), i2 ≤ j2 → y ∈ qq → (y ≤ 0 ∨ 1 ≤ y) →
      ∃ m, uncertainties_fraction E (.int i2) (.int j2) qq =
        .error (.assertionError m)) ∧
    (0 ≤ i → ∀ v ∈ q.map (fun y => E.betaincinv ((i : ℝ) + 1) ((j : ℝ) + 1 - (i : ℝ)) y),
      0 ≤ v ∧ v ≤ 1) := by
  refine ⟨?_, ?_, ?_, ?_, ?_, ?_⟩
  · show (if i ≤ j then _ else _) = _
    rw [if_pos hij, if_pos (fun y hy => (hq y hy).1), if_pos (fun y hy => (hq y hy).2)]
  · intro x n2 qq
    rfl
  · intro i2 x qq
    rfl
  · intro i2 j2 qq h
    show (if i2 ≤ j2 then _ else _) = _
    rw [if_neg (not_le.mpr h)]
  · intro i2 j2 qq y h2 hy hcase
    show ∃ m, (if i2 ≤ j2 then _ else _) = _
    rw [if_pos h2]
    rcases hcase with h0 | h1
    · rw [if_neg (by push_neg; exact ⟨y, hy, h0⟩)]
      exact ⟨_, rfl⟩
    · by_cases hpos : ∀ y2 ∈ qq, 0 < y2
      · rw [if_pos hpos, if_neg (by push_neg; exact ⟨y, hy, h1⟩)]
        exact ⟨_, rfl⟩
      · rw [if_neg hpos]
        exact ⟨_, rfl⟩
  · intro hi v hv
    simp only [List.mem_map] at hv
    obtain ⟨y, hy, rfl⟩ := hv
    have hia : (0 : ℝ) ≤ (i : ℝ) := by exact_mod_cast hi
    have hja : (i : ℝ) ≤ (j : ℝ) := by exact_mod_cast hij
    exact E.betaincinv_mem _ _ _ (by linarith) (by linarith) (hq y hy).1 (hq y hy).2

/-- C8 witness: k = 1 positives out of n = 10 trials at the median
quantile with the concrete collaborator gives the value 1/2, inside
[0, 1]. -/
theorem uncertainties_fraction_spec_w :
    uncertainties_fraction extWitness (.int 1) (.int 10) [1 / 2] = .ok [1 / 2] := by
  have h := (uncertainties_fraction_spec extWitness 1 10 [1 / 2] (by norm_num) (by
    intro y hy
    simp only [List.mem_singleton] at hy
    rw [hy]
    norm_num)).1
  rw [h]
  show Except.ok [min 1 (max 0 (1 / 2 : ℝ))] = _
  norm_num

/-- C8 counterexample: with negative integers k = -5 and n = -1 every
assertion passes (both are integer-typed and k ≤ n), yet a collaborator
that conforms to the documented contract of the inverse incomplete beta
function on its valid domain can return 2, which lies outside [0, 1]:
the claim's range guarantee fails for negative integer k. -/
theorem uncertainties_fraction_negative_k_escapes_range :
    uncertainties_fraction extWitnessBad (.int (-5)) (.int (-1)) [1 / 2] = .ok [2] ∧
    ¬((2 : ℝ) ≤ 1) := by
  constructor
  · have h1 : ∀ y ∈ ([1 / 2] : List ℝ), (0 : ℝ) < y := by
      intro y hy
      simp only [List.mem_singleton] at hy
      rw [hy]
      norm_num
    have h2 : ∀ y ∈ ([1 / 2] : List ℝ), y < (1 : ℝ) := by
      intro y hy
      simp only [List.mem_singleton] at hy
      rw [hy]
      norm_num
    simp only [uncertainties_fraction]
    rw [if_pos (by norm_num : (-5 : ℤ) ≤ -1), if_pos h1, if_pos h2]
    simp only [extWitnessBad, List.map]
    norm_num
  · norm_num

/-- C9: calling significance with an array-valued k of more than one
element does not succeed: the conditional on k forces a single truth
value out of the comparison array and numpy raises ValueError before any
element-wise work, contradicting the claim (and the function's own
documentation) that an array k of the same shape as n is supported. -/
theorem significance_vec_array_k_raises :
    significanceVec extWitness [5, 5] [10, 10] [1 / 100, 1 / 100]
        (.arr [1 / 10, 1 / 10]) =
      .error (.valueError
        "The truth value of an array with more than one element is ambiguous. Use a.any() or a.all()") :=
  rfl

/-- C10: the zero-trials call uncertainties_fraction(0, 0, q) passes
the k ≤ n check (despite the assertion message), raises no error, and
returns q itself, because the inverse regularized incomplete beta
function at shape parameters (1, 1) is the identity on (0, 1). -/
theorem uncertainties_fraction_zero_zero (E : Ext) (q : ℝ) (h0 : 0 < q) (h1 : q < 1) :
    uncertainties_fraction E (.int 0) (.int 0) [q] = .ok [q] := by
  have hq1 : ∀ y ∈ ([q] : List ℝ), (0 : ℝ) < y := by
    intro y hy
    simp only [List.mem_singleton] at hy
    rw [hy]
    exact h0
  have hq2 : ∀ y ∈ ([q] : List ℝ), y < (1 : ℝ) := by
    intro y hy
    simp only [List.mem_singleton] at hy
    rw [hy]
    exact h1
  simp only [uncertainties_fraction]
  rw [if_pos (le_refl (0 : ℤ)), if_pos hq1, if_pos hq2]
  simp only [List.map]
  rw [show (((0 : ℤ) : ℝ) + 1 - ((0 : ℤ) : ℝ)) = 1 by norm_num,
    show (((0 : ℤ) : ℝ) + 1) = 1 by norm_num,
    E.betaincinv_one_one q h0 h1]

/-- C10 witness: the zero-trials identity at the median quantile. -/
theorem uncertainties_fraction_zero_zero_w :
    uncertainties_fraction extWitness (.int 0) (.int 0) [1 / 2] = .ok [1 / 2] :=
  uncertainties_fraction_zero_zero extWitness (1 / 2) (by norm_num) (by norm_num)

end PoissonRegime
